import Mathlib

/-!
Verification of the blocktail tokenization analysis pipeline.

The development embeds the two stages of the pipeline:
* `tokenize_tests.py` — producing one result document per tokenizer from a
  configured corpus of text samples;
* `analysis-compiler.py` — aggregating the result documents into the
  cross-comparison table, the Practical Impact savings, the complexity
  buckets, and the README splice.

Texts are lists of characters; token counts are naturals; floating-point
averages are modelled as exact rationals.
-/

namespace Blocktail

/-- A text sample, modelled as its list of characters. -/
abbrev Text := List Char

/-- The newline character inserted by the report splicer. -/
def nlChar : Char := Char.ofNat 10

/-- One tokenization result as produced by `TokenizerTest.tokenize` and
persisted in a result document: `{input, tokens, num_tokens}`. -/
structure TokenRecord where
  input : Text
  tokens : List Text
  num_tokens : Nat
deriving DecidableEq

/-- A result document: an ordered mapping from naming-convention label to the
list of token records for that convention (one JSON file per tokenizer). -/
abbrev ResultDoc := List (String × List TokenRecord)

/-- An external tokenizer backend: returns the token list for a text, or fails
(`none` models the underlying library raising an exception on that sample). -/
abbrev Tokfn := Text → Option (List Text)

/-- `TokenizerTest.tokenize`: packages the token list returned by the backend
as a record with `num_tokens = len(tokens)` and `input` set to the given
text. -/
def tokenize (text : Text) (tokens : List Text) : TokenRecord :=
  { input := text, tokens := tokens, num_tokens := tokens.length }

/-- One sample inside the loop of `process_tokenizer`: the per-sample
`try/except` turns a backend failure into `none`. -/
def tokenizeSample (tok : Tokfn) (text : Text) : Option TokenRecord :=
  (tok text).map (tokenize text)

/-- `process_tokenizer`: fails (`none`) when the tokenizer cannot be loaded;
otherwise every configured convention gets a key, and samples that fail are
skipped while the rest of the run continues. -/
def process_tokenizer (loader : Option Tokfn)
    (cases : List (String × List Text)) : Option ResultDoc :=
  loader.map fun tok => cases.map fun kv => (kv.1, kv.2.filterMap (tokenizeSample tok))

/-- The `all` branch of `main` in `tokenize_tests.py`: every tokenizer is
processed in turn and the names are collected into the printed
success / failure summary. -/
def runAll (cases : List (String × List Text)) :
    List (String × Option Tokfn) → List String × List String
  | [] => ([], [])
  | t :: rest =>
    let r := runAll cases rest
    match process_tokenizer t.2 cases with
    | some _ => (t.1 :: r.1, r.2)
    | none => (r.1, t.1 :: r.2)

/-- Python `str.count` scan: number of non-overlapping occurrences of `pat`,
found left to right.  `skip` is the number of characters still to be consumed
by the match found just before (so a match at one position restarts the search
`pat.length` characters further on, exactly as Python does). -/
def pyCountGo (pat : Text) (skip : Nat) : Text → Nat
  | [] => 0
  | c :: t =>
    match skip with
    | n + 1 => pyCountGo pat n t
    | 0 =>
      if pat.isPrefixOf (c :: t) then pyCountGo pat (pat.length - 1) t + 1
      else pyCountGo pat 0 t

/-- Python `s.count(pat)` (Python returns `len(s) + 1` for an empty pattern). -/
def pyCount (pat s : Text) : Nat :=
  if pat.isEmpty then s.length + 1 else pyCountGo pat 0 s

/-- The complexity metric of `analyze_methodology`:
`markers = input.count('--') + input.count(' -')`. -/
def markersOf (s : Text) : Nat :=
  pyCount "--".toList s + pyCount " -".toList s

/-- `np.mean` over a list of token counts, as an exact rational (`0` on the
empty list, which every caller guards against). -/
def meanOfCounts (l : List Nat) : ℚ := (l.sum : ℚ) / l.length

/-- `np.mean` over a list of rationals. -/
def meanOfRats (l : List ℚ) : ℚ := l.sum / l.length

/-- Python `min` of a nonempty list of counts (`0` on the empty list). -/
def minOfCounts : List Nat → Nat
  | [] => 0
  | h :: t => t.foldl Nat.min h

/-- Python `max` of a nonempty list of counts (`0` on the empty list). -/
def maxOfCounts : List Nat → Nat
  | [] => 0
  | h :: t => t.foldl Nat.max h

/-- `np.mean([e["num_tokens"] for e in recs])`. -/
def convAvg (recs : List TokenRecord) : ℚ :=
  meanOfCounts (recs.map (·.num_tokens))

/-- Dictionary lookup `results[k]` (and `k in results`) on a result document. -/
def lookupConv (k : String) : ResultDoc → Option (List TokenRecord)
  | [] => none
  | kv :: rest => if kv.1 = k then some kv.2 else lookupConv k rest

/-- `data.get(k, [])`. -/
def getConv (data : ResultDoc) (k : String) : List TokenRecord :=
  (lookupConv k data).getD []

/-- Lookup in the marker-keyed grouping built by the `defaultdict(list)`. -/
def alookup (k : Nat) : List (Nat × List Nat) → Option (List Nat)
  | [] => none
  | g :: rest => if g.1 = k then some g.2 else alookup k rest

/-- `component_sizes[markers].append(num_tokens)`: append `v` to the group of
key `k`, creating the group at the end on first occurrence (Python dict
insertion order). -/
def insertGroup (k v : Nat) : List (Nat × List Nat) → List (Nat × List Nat)
  | [] => [(k, [v])]
  | g :: rest => if g.1 = k then (g.1, g.2 ++ [v]) :: rest else g :: insertGroup k v rest

/-- The `component_sizes` accumulation loop of `analyze_methodology`. -/
def componentSizes (entries : List TokenRecord) : List (Nat × List Nat) :=
  entries.foldl (fun acc r => insertGroup (markersOf r.input) r.num_tokens acc) []

/-- The records whose input has exactly `k` complexity markers, projected to
their token counts: what the spec says bucket `k` aggregates. -/
def bucketCounts (k : Nat) (entries : List TokenRecord) : List Nat :=
  (entries.filter fun r => markersOf r.input == k).map (·.num_tokens)

/-- The return value of `TokenizationAnalyzer.analyze_methodology`. -/
structure MethodologyStats where
  avg_tokens : ℚ
  token_range : Nat × Nat
  by_complexity : List (Nat × ℚ)
deriving DecidableEq

/-- `TokenizationAnalyzer.analyze_methodology`. -/
def analyze_methodology (results : ResultDoc) (methodology : String) :
    MethodologyStats :=
  match lookupConv methodology results with
  | none => { avg_tokens := 0, token_range := (0, 0), by_complexity := [] }
  | some entries =>
    let tokens := entries.map (·.num_tokens)
    { avg_tokens := if tokens.isEmpty then 0 else meanOfCounts tokens
      token_range :=
        if tokens.isEmpty then (0, 0) else (minOfCounts tokens, maxOfCounts tokens)
      by_complexity := (componentSizes entries).map fun g => (g.1, meanOfCounts g.2) }

/-- A rendered cell of the cross-comparison table: a plain average, a
percentage, or the string `"N/A"`. -/
inductive Cell where
  | val : ℚ → Cell
  | pct : ℚ → Cell
  | na : Cell
deriving DecidableEq

/-- One row of the cross-comparison table of `generate_summary`. -/
structure CompRow where
  tokName : String
  blocktailAvg : ℚ
  tradAvg : ℚ
  bemAvg : Cell
  vsTrad : Cell
  vsBem : Cell
deriving DecidableEq

/-- Python truthiness of an optional float: `None` and `0.0` are falsy. -/
def truthy : Option ℚ → Bool
  | none => false
  | some x => !(x == 0)

/-- One iteration of the comparison-row loop of `generate_summary`: `none` when
the row is skipped because Blocktail or Traditional data is missing or
empty. -/
def mkRow (name : String) (data : ResultDoc) : Option CompRow :=
  let blocktail_data := getConv data "Blocktail"
  let trad_data := getConv data "Traditional"
  let bem_data := getConv data "BEM"
  if blocktail_data.isEmpty || trad_data.isEmpty then none
  else
    let blocktail_avg := convAvg blocktail_data
    let trad_avg := convAvg trad_data
    let bem_avg : Option ℚ :=
      if bem_data.isEmpty then none else some (convAvg bem_data)
    let vs_trad : ℚ :=
      if 0 < trad_avg then (trad_avg - blocktail_avg) / trad_avg * 100 else 0
    let vs_bem : Option ℚ :=
      if truthy bem_avg then
        some ((bem_avg.getD 0 - blocktail_avg) / bem_avg.getD 0 * 100)
      else none
    some
      { tokName := name
        blocktailAvg := blocktail_avg
        tradAvg := trad_avg
        bemAvg := if truthy bem_avg then Cell.val (bem_avg.getD 0) else Cell.na
        vsTrad := Cell.pct vs_trad
        vsBem := if truthy vs_bem then Cell.pct (vs_bem.getD 0) else Cell.na }

/-- The comparison rows of `generate_summary`, over the loaded documents in
order. -/
def comparison_rows (docs : List (String × ResultDoc)) : List CompRow :=
  docs.filterMap fun nd => mkRow nd.1 nd.2

/-- The contribution of one result document to `all_savings` in the Practical
Impact section of `generate_summary`. -/
def savingsOfDoc (data : ResultDoc) : List ℚ :=
  let blocktail_info := analyze_methodology data "Blocktail"
  let trad_info := analyze_methodology data "Traditional"
  (if 0 < trad_info.avg_tokens then
      [trad_info.avg_tokens - blocktail_info.avg_tokens]
    else []) ++
  (if (lookupConv "BEM" data).isSome then
      let bem_info := analyze_methodology data "BEM"
      if 0 < bem_info.avg_tokens then
        [bem_info.avg_tokens - blocktail_info.avg_tokens]
      else []
    else [])

/-- The `all_savings` list of `generate_summary`. -/
def all_savings (docs : List (String × ResultDoc)) : List ℚ :=
  docs.flatMap fun nd => savingsOfDoc nd.2

/-- `avg_savings = np.mean(all_savings)`. -/
def avg_savings (docs : List (String × ResultDoc)) : ℚ :=
  meanOfRats (all_savings docs)

/-- The Practical Impact savings as the spec states them: for each tokenizer
and each baseline convention (Traditional, then BEM), the delta
`baseline_avg - blocktail_avg`, kept only when that baseline's average token
count is positive. -/
def savingsSpec (docs : List (String × ResultDoc)) : List ℚ :=
  docs.flatMap fun nd =>
    ["Traditional", "BEM"].filterMap fun base =>
      let a := (analyze_methodology nd.2 base).avg_tokens
      if 0 < a then some (a - (analyze_methodology nd.2 "Blocktail").avg_tokens)
      else none

/-- The opening sentinel marker used by `main` when updating `README.md`. -/
def resultsMark : Text := "<!-- RESULTS -->".toList

/-- The closing sentinel marker used by `main` when updating `README.md`. -/
def endResultsMark : Text := "<!-- END_RESULTS -->".toList

/-- Index of the first occurrence of `pat` in a text (Python `s.find(pat)`). -/
def findSub (pat : Text) : Text → Option Nat
  | [] => if pat.isPrefixOf ([] : Text) then some 0 else none
  | c :: t => if pat.isPrefixOf (c :: t) then some 0 else (findSub pat t).map (· + 1)

/-- Python `s.split(pat, 1)`: the text before and after the first occurrence of
`pat`, or `none` when `pat` does not occur (`pat in s` is `findSub ≠ none`). -/
def splitOnce (s pat : Text) : Option (Text × Text) :=
  (findSub pat s).map fun i => (s.take i, s.drop (i + pat.length))

/-- The README-update logic of `main` in `analysis-compiler.py`. -/
def spliceReadme (readme summary : Text) : Text :=
  match splitOnce readme resultsMark with
  | some pr =>
    let base := pr.1 ++ resultsMark ++ nlChar :: summary
    match splitOnce pr.2 endResultsMark with
    | some qr => base ++ nlChar :: (endResultsMark ++ qr.2)
    | none => base
  | none =>
    readme ++ nlChar :: (resultsMark ++ nlChar :: (summary ++ nlChar :: endResultsMark))

/-! ### Concrete data used by witnesses and counterexamples -/

/-- A backend for witnesses: fails on the empty text, else one token. -/
def exTok : Tokfn := fun t => if t.isEmpty then none else some [t]

/-- A configured corpus for witnesses (the middle sample fails under `exTok`). -/
def exCases : List (String × List Text) :=
  [("Traditional", ["ab".toList, [], "cd".toList])]

/-- A batch of tokenizers for the C7 witness: one loads, one does not. -/
def exToks : List (String × Option Tokfn) := [("gpt2", some exTok), ("bert", none)]

/-- A document whose Traditional samples all tokenize to zero tokens. -/
def exDocZeroTrad : ResultDoc :=
  [("Blocktail", [{ input := "b".toList, tokens := ["b".toList], num_tokens := 1 }]),
   ("Traditional", [{ input := "tr".toList, tokens := [], num_tokens := 0 }])]

/-- A document with all three conventions present. -/
def exDocFull : ResultDoc :=
  [("Blocktail", [{ input := "b".toList, tokens := [], num_tokens := 2 }]),
   ("Traditional", [{ input := "t".toList, tokens := [], num_tokens := 4 }]),
   ("BEM", [{ input := "m".toList, tokens := [], num_tokens := 8 }])]

/-- A document without any BEM data. -/
def exDocNoBem : ResultDoc :=
  [("Blocktail", [{ input := "b".toList, tokens := [], num_tokens := 3 }]),
   ("Traditional", [{ input := "t".toList, tokens := [], num_tokens := 6 }])]

/-- A document with only Blocktail data (no Traditional baseline). -/
def exDocOnlyBt : ResultDoc :=
  [("Blocktail", [{ input := "b".toList, tokens := [], num_tokens := 3 }])]

/-- A document with Traditional data but no Blocktail entries. -/
def exDocNoBt : ResultDoc :=
  [("Traditional", [{ input := "t".toList, tokens := [], num_tokens := 7 }])]

/-- A record for the input `"a--b"` cited by the spec. -/
def exRecDashes : TokenRecord := { input := "a--b".toList, tokens := [], num_tokens := 3 }

/-- A record for the input `"a -b -c"` cited by the spec. -/
def exRecSpaces : TokenRecord := { input := "a -b -c".toList, tokens := [], num_tokens := 5 }

/-- A document with Blocktail samples whose token counts are 3, 5, 7. -/
def exDoc357 : ResultDoc :=
  [("Blocktail",
    [{ input := [], tokens := [], num_tokens := 3 },
     { input := [], tokens := [], num_tokens := 5 },
     { input := [], tokens := [], num_tokens := 7 }])]

/-- The record `exTok` produces for the sample `"ab"`. -/
def exRecAB : TokenRecord := { input := "ab".toList, tokens := ["ab".toList], num_tokens := 1 }

/-- The record `exTok` produces for the sample `"cd"`. -/
def exRecCD : TokenRecord := { input := "cd".toList, tokens := ["cd".toList], num_tokens := 1 }

/-- The comparison row `mkRow` produces for `exDocFull`. -/
def exRowFull : CompRow :=
  { tokName := "t", blocktailAvg := 2, tradAvg := 4, bemAvg := Cell.val 8,
    vsTrad := Cell.pct 50, vsBem := Cell.pct 75 }

/-- README prefix for the splice witness. -/
def exA : Text := "# Title\n".toList

/-- Old report body for the splice witness. -/
def exB : Text := "old".toList

/-- README suffix for the splice witness. -/
def exC : Text := "\n## Tail".toList

/-- Fresh report for the splice witness. -/
def exSummary : Text := "# Report".toList

/-! ### Theorems -/

/-- Claim C2: every token record produced by `tokenize` — and hence every
record in a result document written by `process_tokenizer` — satisfies
`num_tokens = tokens.length`, and its `input` field is exactly the text that
was tokenized: a configured sample whose tokenization produced the recorded
tokens. -/
theorem c2_tokenrecord_invariant (tok : Tokfn)
    (cases : List (String × List Text)) (doc : ResultDoc)
    (hdoc : process_tokenizer (some tok) cases = some doc)
    (conv : String) (recs : List TokenRecord) (hconv : (conv, recs) ∈ doc)
    (r : TokenRecord) (hr : r ∈ recs) :
    r.num_tokens = r.tokens.length ∧ tok r.input = some r.tokens ∧
      ∃ exs, (conv, exs) ∈ cases ∧ r.input ∈ exs := by
  simp only [process_tokenizer, Option.map_some', Option.some.injEq] at hdoc
  subst hdoc
  rcases List.mem_map.mp hconv with ⟨kv, hkv, hEq⟩
  rcases Prod.mk.injEq .. ▸ hEq with ⟨h1, h2⟩
  subst h1
  subst h2
  rcases List.mem_filterMap.mp hr with ⟨text, htext, hsome⟩
  simp only [tokenizeSample] at hsome
  rcases Option.map_eq_some'.mp hsome with ⟨ts, hts, hrec⟩
  subst hrec
  exact ⟨rfl, by simpa [tokenize] using hts, kv.2, by simpa using hkv, htext⟩

/-- Witness for C2 on concrete data. -/
theorem c2_tokenrecord_invariant_witness :
    process_tokenizer (some exTok) exCases =
      some [("Traditional", [exRecAB, exRecCD])] ∧
    (exRecAB.num_tokens = exRecAB.tokens.length ∧
      exTok exRecAB.input = some exRecAB.tokens ∧
      ∃ exs, ("Traditional", exs) ∈ exCases ∧ exRecAB.input ∈ exs) :=
  ⟨by decide,
    c2_tokenrecord_invariant exTok exCases [("Traditional", [exRecAB, exRecCD])]
      (by decide) "Traditional" [exRecAB, exRecCD] (by decide) exRecAB (by decide)⟩

/-- Claim C7: a failing sample is omitted while the samples before and after it
are still processed; a tokenizer that fails to load yields a failed run
(`none`); and the `all` batch still reaches every tokenizer, its printed
summary listing exactly the loadable tokenizers as successes and the others as
failures. -/
theorem c7_failure_granularity (tok : Tokfn) (conv : String)
    (pre post : List Text) (bad : Text) (hbad : tok bad = none)
    (cases : List (String × List Text)) (toks : List (String × Option Tokfn)) :
    process_tokenizer (some tok) [(conv, pre ++ bad :: post)] =
      some [(conv, pre.filterMap (tokenizeSample tok) ++
        post.filterMap (tokenizeSample tok))] ∧
    process_tokenizer none cases = none ∧
    runAll cases toks =
      ((toks.filter fun t => t.2.isSome).map Prod.fst,
        (toks.filter fun t => t.2.isNone).map Prod.fst) := by
  refine ⟨?_, rfl, ?_⟩
  · simp [process_tokenizer, List.filterMap_append, List.filterMap_cons,
      tokenizeSample, hbad]
  · induction toks with
    | nil => rfl
    | cons t rest ih =>
      cases h : t.2 with
      | none => simp [runAll, process_tokenizer, h, ih, List.filter_cons]
      | some tk => simp [runAll, process_tokenizer, h, ih, List.filter_cons]

/-- Witness for C7 on concrete data. -/
theorem c7_failure_granularity_witness :
    exTok ([] : Text) = none ∧
    (process_tokenizer (some exTok) [("Traditional", ["ab".toList] ++ [] :: ["cd".toList])] =
      some [("Traditional", ["ab".toList].filterMap (tokenizeSample exTok) ++
        ["cd".toList].filterMap (tokenizeSample exTok))] ∧
    process_tokenizer none exCases = none ∧
    runAll exCases exToks =
      ((exToks.filter fun t => t.2.isSome).map Prod.fst,
        (exToks.filter fun t => t.2.isNone).map Prod.fst)) :=
  ⟨rfl, c7_failure_granularity exTok "Traditional" ["ab".toList] ["cd".toList] [] rfl
    exCases exToks⟩

/-- Claim C9: when the tokenizer loads, the written document has a key for
every configured convention — mapped to the empty list when every sample
failed — so a convention is never absent from a successfully written
document. -/
theorem c9_convention_keys (tok : Tokfn)
    (cases : List (String × List Text)) (doc : ResultDoc)
    (hdoc : process_tokenizer (some tok) cases = some doc)
    (conv : String) (exs : List Text) (hconv : (conv, exs) ∈ cases) :
    (∃ recs, (conv, recs) ∈ doc) ∧
      ((∀ ex ∈ exs, tok ex = none) → (conv, ([] : List TokenRecord)) ∈ doc) := by
  simp only [process_tokenizer, Option.map_some', Option.some.injEq] at hdoc
  subst hdoc
  constructor
  · exact ⟨exs.filterMap (tokenizeSample tok),
      List.mem_map.mpr ⟨(conv, exs), hconv, rfl⟩⟩
  · intro hall
    have hnil : exs.filterMap (tokenizeSample tok) = [] := by
      rw [List.filterMap_eq_nil_iff]
      intro ex hex
      simp [tokenizeSample, hall ex hex]
    exact List.mem_map.mpr ⟨(conv, exs), hconv, by simp [hnil]⟩

/-- Witness for C9 on concrete data: a tokenizer whose every sample fails still
writes the convention key, with an empty list. -/
theorem c9_convention_keys_witness :
    process_tokenizer (some exTok) [("BEM", [([] : Text)])] =
      some [("BEM", ([] : List TokenRecord))] ∧
    ("BEM", [([] : Text)]) ∈ [("BEM", [([] : Text)])] ∧
    (∃ recs, ("BEM", recs) ∈ [("BEM", ([] : List TokenRecord))]) ∧
    ("BEM", ([] : List TokenRecord)) ∈ [("BEM", ([] : List TokenRecord))] :=
  ⟨by decide, by decide,
    (c9_convention_keys exTok [("BEM", [[]])] [("BEM", [])] (by decide) "BEM" [[]]
      (by decide)).1,
    (c9_convention_keys exTok [("BEM", [[]])] [("BEM", [])] (by decide) "BEM" [[]]
      (by decide)).2 (by decide)⟩

/-- The left fold of `Nat.min` lands on a member of the list it folds over. -/
theorem foldl_min_mem (h : Nat) (t : List Nat) : t.foldl Nat.min h ∈ h :: t := by
  induction t generalizing h with
  | nil => simp
  | cons a t ih =>
    have hm : Nat.min h a = h ∨ Nat.min h a = a := by
      rcases Nat.le_total h a with hle | hle
      · exact Or.inl (Nat.min_eq_left hle)
      · exact Or.inr (Nat.min_eq_right hle)
    simp only [List.foldl_cons]
    rcases List.mem_cons.mp (ih (Nat.min h a)) with h1 | h1
    · rcases hm with h2 | h2 <;> rw [h1, h2] <;> simp
    · simp [List.mem_cons, h1]

/-- The left fold of `Nat.min` bounds every member from below. -/
theorem foldl_min_le (h : Nat) (t : List Nat) :
    ∀ x ∈ h :: t, t.foldl Nat.min h ≤ x := by
  induction t generalizing h with
  | nil => simp
  | cons a t ih =>
    intro x hx
    simp only [List.foldl_cons]
    have hmin1 : t.foldl Nat.min (Nat.min h a) ≤ Nat.min h a :=
      ih (Nat.min h a) (Nat.min h a) (List.mem_cons_self _ _)
    rcases List.mem_cons.mp hx with h1 | h1
    · rw [h1]
      exact hmin1.trans (Nat.min_le_left _ _)
    · rcases List.mem_cons.mp h1 with h2 | h2
      · rw [h2]
        exact hmin1.trans (Nat.min_le_right _ _)
      · exact ih (Nat.min h a) x (List.mem_cons_of_mem _ h2)

/-- The left fold of `Nat.max` lands on a member of the list it folds over. -/
theorem foldl_max_mem (h : Nat) (t : List Nat) : t.foldl Nat.max h ∈ h :: t := by
  induction t generalizing h with
  | nil => simp
  | cons a t ih =>
    have hm : Nat.max h a = h ∨ Nat.max h a = a := by
      rcases Nat.le_total h a with hle | hle
      · exact Or.inr (Nat.max_eq_right hle)
      · exact Or.inl (Nat.max_eq_left hle)
    simp only [List.foldl_cons]
    rcases List.mem_cons.mp (ih (Nat.max h a)) with h1 | h1
    · rcases hm with h2 | h2 <;> rw [h1, h2] <;> simp
    · simp [List.mem_cons, h1]

/-- The left fold of `Nat.max` bounds every member from above. -/
theorem foldl_le_max (h : Nat) (t : List Nat) :
    ∀ x ∈ h :: t, x ≤ t.foldl Nat.max h := by
  induction t generalizing h with
  | nil => simp
  | cons a t ih =>
    intro x hx
    simp only [List.foldl_cons]
    have hmax1 : Nat.max h a ≤ t.foldl Nat.max (Nat.max h a) :=
      ih (Nat.max h a) (Nat.max h a) (List.mem_cons_self _ _)
    rcases List.mem_cons.mp hx with h1 | h1
    · rw [h1]
      exact (Nat.le_max_left h a).trans hmax1
    · rcases List.mem_cons.mp h1 with h2 | h2
      · rw [h2]
        exact (Nat.le_max_right h a).trans hmax1
      · exact ih (Nat.max h a) x (List.mem_cons_of_mem _ h2)

/-- Claim C8: for a convention present in a document, `analyze_methodology`
returns the exact arithmetic mean of the `num_tokens` values as `avg_tokens`
and their minimum and maximum as `token_range`; for token counts `[3, 5, 7]`
the average is exactly `5`. -/
theorem c8_methodology_stats (results : ResultDoc) (methodology : String)
    (entries : List TokenRecord) (hlook : lookupConv methodology results = some entries)
    (hne : entries ≠ []) :
    (analyze_methodology results methodology).avg_tokens =
      ((((entries.map (·.num_tokens)).sum : ℕ) : ℚ) /
        (((entries.map (·.num_tokens)).length : ℕ) : ℚ)) ∧
    (analyze_methodology results methodology).token_range.1 ∈ entries.map (·.num_tokens) ∧
    (∀ x ∈ entries.map (·.num_tokens),
      (analyze_methodology results methodology).token_range.1 ≤ x) ∧
    (analyze_methodology results methodology).token_range.2 ∈ entries.map (·.num_tokens) ∧
    (∀ x ∈ entries.map (·.num_tokens),
      x ≤ (analyze_methodology results methodology).token_range.2) ∧
    (analyze_methodology exDoc357 "Blocktail").avg_tokens = 5 := by
  have hmap : entries.map (·.num_tokens) ≠ [] := by
    intro hmapnil
    exact hne (List.map_eq_nil_iff.mp hmapnil)
  rcases List.exists_cons_of_ne_nil hmap with ⟨h0, t0, hht⟩
  have hstats : analyze_methodology results methodology =
      { avg_tokens := meanOfCounts (entries.map (·.num_tokens))
        token_range := (minOfCounts (entries.map (·.num_tokens)),
          maxOfCounts (entries.map (·.num_tokens)))
        by_complexity := (componentSizes entries).map fun g => (g.1, meanOfCounts g.2) } := by
    simp [analyze_methodology, hlook, List.isEmpty_iff, hmap]
  rw [hstats]
  refine ⟨rfl, ?_, ?_, ?_, ?_, ?_⟩
  · rw [hht]; exact foldl_min_mem h0 t0
  · rw [hht]; exact foldl_min_le h0 t0
  · rw [hht]; exact foldl_max_mem h0 t0
  · rw [hht]; exact foldl_le_max h0 t0
  · norm_num [analyze_methodology, exDoc357, lookupConv, componentSizes, insertGroup,
      markersOf, pyCount, pyCountGo, meanOfCounts, minOfCounts, maxOfCounts]

/-- Witness for C8 on the document with token counts 3, 5, 7. -/
theorem c8_methodology_stats_witness :
    lookupConv "Blocktail" exDoc357 =
      some [{ input := [], tokens := [], num_tokens := 3 },
        { input := [], tokens := [], num_tokens := 5 },
        { input := [], tokens := [], num_tokens := 7 }] ∧
    ((analyze_methodology exDoc357 "Blocktail").avg_tokens =
      (((((([{ input := [], tokens := [], num_tokens := 3 },
        { input := [], tokens := [], num_tokens := 5 },
        { input := [], tokens := [], num_tokens := 7 }] : List TokenRecord).map
          (·.num_tokens)).sum : ℕ) : ℚ)) /
        ((((([{ input := [], tokens := [], num_tokens := 3 },
        { input := [], tokens := [], num_tokens := 5 },
        { input := [], tokens := [], num_tokens := 7 }] : List TokenRecord).map
          (·.num_tokens)).length : ℕ) : ℚ))) ∧
    (analyze_methodology exDoc357 "Blocktail").token_range.1 ∈
      ([{ input := [], tokens := [], num_tokens := 3 },
        { input := [], tokens := [], num_tokens := 5 },
        { input := [], tokens := [], num_tokens := 7 }] : List TokenRecord).map
          (·.num_tokens) ∧
    (∀ x ∈ ([{ input := [], tokens := [], num_tokens := 3 },
        { input := [], tokens := [], num_tokens := 5 },
        { input := [], tokens := [], num_tokens := 7 }] : List TokenRecord).map
          (·.num_tokens),
      (analyze_methodology exDoc357 "Blocktail").token_range.1 ≤ x) ∧
    (analyze_methodology exDoc357 "Blocktail").token_range.2 ∈
      ([{ input := [], tokens := [], num_tokens := 3 },
        { input := [], tokens := [], num_tokens := 5 },
        { input := [], tokens := [], num_tokens := 7 }] : List TokenRecord).map
          (·.num_tokens) ∧
    (∀ x ∈ ([{ input := [], tokens := [], num_tokens := 3 },
        { input := [], tokens := [], num_tokens := 5 },
        { input := [], tokens := [], num_tokens := 7 }] : List TokenRecord).map
          (·.num_tokens),
      x ≤ (analyze_methodology exDoc357 "Blocktail").token_range.2) ∧
    (analyze_methodology exDoc357 "Blocktail").avg_tokens = 5) :=
  ⟨by decide,
    c8_methodology_stats exDoc357 "Blocktail"
      [{ input := [], tokens := [], num_tokens := 3 },
        { input := [], tokens := [], num_tokens := 5 },
        { input := [], tokens := [], num_tokens := 7 }] (by decide) (by decide)⟩

/-- `analyze_methodology` on an absent convention returns the zero stats. -/
theorem analyze_methodology_absent (results : ResultDoc) (m : String)
    (h : lookupConv m results = none) :
    analyze_methodology results m =
      { avg_tokens := 0, token_range := (0, 0), by_complexity := [] } := by
  simp [analyze_methodology, h]

/-- Claim C10: `analyze_methodology` is total over missing conventions,
returning average `0`, range `(0, 0)` and no complexity buckets; hence a
document with a positive Traditional average and no Blocktail entries
contributes the full Traditional average to the savings list. -/
theorem c10_missing_defaults (results : ResultDoc) (m : String)
    (habs : lookupConv m results = none)
    (data : ResultDoc) (hbt : lookupConv "Blocktail" data = none)
    (hpos : 0 < (analyze_methodology data "Traditional").avg_tokens) :
    analyze_methodology results m =
      { avg_tokens := 0, token_range := (0, 0), by_complexity := [] } ∧
    ∃ rest, savingsOfDoc data =
      (analyze_methodology data "Traditional").avg_tokens :: rest := by
  refine ⟨analyze_methodology_absent results m habs, ?_⟩
  have hbt0 : (analyze_methodology data "Blocktail").avg_tokens = 0 := by
    rw [analyze_methodology_absent data "Blocktail" hbt]
  refine ⟨if (lookupConv "BEM" data).isSome then
      (if 0 < (analyze_methodology data "BEM").avg_tokens then
        [(analyze_methodology data "BEM").avg_tokens -
          (analyze_methodology data "Blocktail").avg_tokens] else [])
    else [], ?_⟩
  simp [savingsOfDoc, hpos, hbt0]

/-- Witness for C10 on concrete data. -/
theorem c10_missing_defaults_witness :
    lookupConv "BEM" exDocNoBt = none ∧
    lookupConv "Blocktail" exDocNoBt = none ∧
    (0 : ℚ) < (analyze_methodology exDocNoBt "Traditional").avg_tokens ∧
    (analyze_methodology exDocNoBt "BEM" =
      { avg_tokens := 0, token_range := (0, 0), by_complexity := [] } ∧
    ∃ rest, savingsOfDoc exDocNoBt =
      (analyze_methodology exDocNoBt "Traditional").avg_tokens :: rest) :=
  ⟨by decide, by decide,
    by norm_num [analyze_methodology, exDocNoBt, lookupConv, meanOfCounts],
    c10_missing_defaults exDocNoBt "BEM" (by decide) exDocNoBt (by decide)
      (by norm_num [analyze_methodology, exDocNoBt, lookupConv, meanOfCounts])⟩

/-- `savingsOfDoc` coincides with the spec's description: one delta per
baseline convention with a positive average. -/
theorem savingsOfDoc_eq_spec (data : ResultDoc) :
    savingsOfDoc data =
      ["Traditional", "BEM"].filterMap fun base =>
        if 0 < (analyze_methodology data base).avg_tokens then
          some ((analyze_methodology data base).avg_tokens -
            (analyze_methodology data "Blocktail").avg_tokens)
        else none := by
  rw [savingsOfDoc]
  rcases hbem : lookupConv "BEM" data with _ | entries
  · have h0 : (analyze_methodology data "BEM").avg_tokens = 0 := by
      rw [analyze_methodology_absent data "BEM" hbem]
    by_cases ht : 0 < (analyze_methodology data "Traditional").avg_tokens <;>
      simp [List.filterMap_cons, hbem, ht, h0]
  · by_cases ht : 0 < (analyze_methodology data "Traditional").avg_tokens <;>
      by_cases hb : 0 < (analyze_methodology data "BEM").avg_tokens <;>
      simp [List.filterMap_cons, hbem, ht, hb]

/-- Claim C5: the Practical Impact savings list equals, delta for delta, the
spec's description — for each tokenizer the `(baseline_avg - blocktail_avg)`
deltas with Blocktail as candidate, taken only over baselines with a positive
average — and the reported average savings is the arithmetic mean of those
deltas. -/
theorem c5_savings_mean (docs : List (String × ResultDoc)) :
    all_savings docs = savingsSpec docs ∧
    avg_savings docs = meanOfRats (savingsSpec docs) := by
  have h : all_savings docs = savingsSpec docs := by
    rw [all_savings, savingsSpec]
    refine List.flatMap_congr ?_
    intro nd _
    exact savingsOfDoc_eq_spec nd.2
  exact ⟨h, by rw [avg_savings, h]⟩

/-- `alookup` after `insertGroup`: the inserted value lands at the end of its
key's group, other keys are untouched. -/
theorem alookup_insertGroup (k km vm : Nat) (acc : List (Nat × List Nat)) :
    alookup k (insertGroup km vm acc) =
      if k = km then some ((alookup k acc).getD [] ++ [vm]) else alookup k acc := by
  induction acc with
  | nil =>
    by_cases h : k = km
    · simp [insertGroup, alookup, h]
    · have h2 : ¬ km = k := fun hc => h hc.symm
      simp [insertGroup, alookup, h, h2]
  | cons g rest ih =>
    rcases g with ⟨gk, gv⟩
    by_cases hgk : gk = km
    · by_cases hk : gk = k
      · have h1 : k = km := hk ▸ hgk
        simp [insertGroup, alookup, hgk, hk, h1]
      · have h1 : ¬ k = km := fun hc => hk (hgk.trans hc.symm)
        have h3 : ¬ km = k := fun hc => hk (hgk.trans hc)
        simp [insertGroup, alookup, hgk, hk, h1, h3]
    · by_cases hk : gk = k
      · have h1 : ¬ k = km := fun hc => hgk (hk ▸ hc)
        simp [insertGroup, alookup, hgk, hk, h1]
      · simp [insertGroup, alookup, hgk, hk, ih]

/-- The grouping loop of `analyze_methodology`, characterised by
`bucketCounts`: starting from accumulator `acc`, the final group of key `k`
extends the old one by exactly the token counts of the entries whose input has
`k` markers. -/
theorem componentSizes_go (entries : List TokenRecord) :
    ∀ (acc : List (Nat × List Nat)) (k : Nat),
      alookup k (entries.foldl
          (fun acc r => insertGroup (markersOf r.input) r.num_tokens acc) acc) =
        match alookup k acc with
        | some vs => some (vs ++ bucketCounts k entries)
        | none => if bucketCounts k entries = [] then none
            else some (bucketCounts k entries) := by
  induction entries with
  | nil =>
    intro acc k
    cases hacc : alookup k acc <;> simp [bucketCounts, hacc]
  | cons r rest ih =>
    intro acc k
    simp only [List.foldl_cons]
    rw [ih (insertGroup (markersOf r.input) r.num_tokens acc) k,
      alookup_insertGroup]
    have hbc : bucketCounts k (r :: rest) =
        if markersOf r.input = k then r.num_tokens :: bucketCounts k rest
        else bucketCounts k rest := by
      simp only [bucketCounts, List.filter_cons]
      by_cases hm : markersOf r.input = k <;> simp [hm]
    by_cases hm : k = markersOf r.input
    · have hm2 : markersOf r.input = k := hm.symm
      rw [if_pos hm, hbc, if_pos hm2]
      cases hacc : alookup k acc <;> simp
    · have hm2 : ¬ markersOf r.input = k := fun hc => hm hc.symm
      rw [if_neg hm, hbc, if_neg hm2]

/-- Counterexample to claim C3 as stated: `"a--b"` has 1 marker, not 2, so it
lands in a different bucket than `"a -b -c"` (2 markers) and their token
counts are not averaged together. -/
theorem c3_counterexample :
    markersOf "a--b".toList = 1 ∧ ¬ markersOf "a--b".toList = 2 ∧
    markersOf "a -b -c".toList = 2 ∧
    componentSizes [exRecDashes, exRecSpaces] = [(1, [3]), (2, [5])] := by
  decide

/-- Claim C3 (amended): the complexity metric is the Python count
`input.count('--') + input.count(' -')`; each bucket of the complexity
breakdown aggregates exactly the token counts of the records whose input has
that marker count, so equal-marker inputs are averaged together; but the two
inputs the spec cites have 1 and 2 markers respectively and therefore fall
into different buckets. -/
theorem c3_marker_buckets (entries : List TokenRecord) (k : Nat) (vs : List Nat)
    (h : alookup k (componentSizes entries) = some vs) :
    vs = bucketCounts k entries ∧
    markersOf "a--b".toList = 1 ∧ markersOf "a -b -c".toList = 2 := by
  refine ⟨?_, by decide, by decide⟩
  rw [componentSizes, componentSizes_go entries [] k] at h
  simp only [alookup] at h
  by_cases hb : bucketCounts k entries = []
  · rw [if_pos hb] at h
    cases h
  · rw [if_neg hb] at h
    exact (Option.some_inj.mp h).symm

/-- Witness for the amended C3 on the two cited inputs. -/
theorem c3_marker_buckets_witness :
    alookup 1 (componentSizes [exRecDashes, exRecSpaces]) = some [3] ∧
    ([3] : List Nat) = bucketCounts 1 [exRecDashes, exRecSpaces] ∧
    markersOf "a--b".toList = 1 ∧ markersOf "a -b -c".toList = 2 :=
  ⟨by decide, c3_marker_buckets [exRecDashes, exRecSpaces] 1 [3] (by decide)⟩

/-- Counterexample to claim C1 as stated: a tokenizer whose Traditional
baseline averages 0 tokens still gets a comparison row, and its
vs-Traditional delta is rendered as the percentage `0.0%`, not as
"not applicable". -/
theorem c1_counterexample :
    convAvg (getConv exDocZeroTrad "Traditional") = 0 ∧
    (comparison_rows [("t", exDocZeroTrad)]).map (·.vsTrad) = [Cell.pct 0] ∧
    Cell.pct 0 ≠ Cell.na := by
  refine ⟨?_, ?_, by decide⟩
  · have hg : getConv exDocZeroTrad "Traditional" =
        [{ input := "tr".toList, tokens := [], num_tokens := 0 }] := by decide
    rw [hg]
    norm_num [convAvg, meanOfCounts]
  · simp [comparison_rows, mkRow, getConv, lookupConv, exDocZeroTrad, convAvg,
      meanOfCounts, truthy]

/-- Claim C1 (amended): in each produced comparison row, the vs-Traditional
delta equals `(avg(Trad) - avg(Blocktail)) / avg(Trad) * 100` when
`avg(Trad) > 0`, and is rendered as the percentage `0.0%` — not "N/A" — when
`avg(Trad) = 0`; the vs-BEM delta equals
`(avg(BEM) - avg(Blocktail)) / avg(BEM) * 100` when `avg(BEM) > 0` and that
value is nonzero, and is rendered as "N/A" when the BEM data is absent or
empty, when `avg(BEM) = 0`, or when the computed delta is `0`; a document with
empty Traditional data produces no row at all. -/
theorem c1_delta_cells (name : String) (data : ResultDoc) :
    (∀ row, mkRow name data = some row →
      row.blocktailAvg = convAvg (getConv data "Blocktail") ∧
      row.tradAvg = convAvg (getConv data "Traditional") ∧
      (0 < row.tradAvg →
        row.vsTrad = Cell.pct ((row.tradAvg - row.blocktailAvg) / row.tradAvg * 100)) ∧
      (row.tradAvg = 0 → row.vsTrad = Cell.pct 0) ∧
      ((getConv data "BEM").isEmpty = true → row.bemAvg = Cell.na ∧ row.vsBem = Cell.na) ∧
      (convAvg (getConv data "BEM") = 0 → row.bemAvg = Cell.na ∧ row.vsBem = Cell.na) ∧
      ((getConv data "BEM").isEmpty = false → convAvg (getConv data "BEM") ≠ 0 →
        row.bemAvg = Cell.val (convAvg (getConv data "BEM")) ∧
        (∀ d, d = (convAvg (getConv data "BEM") - row.blocktailAvg) /
            convAvg (getConv data "BEM") * 100 →
          (d ≠ 0 → row.vsBem = Cell.pct d) ∧ (d = 0 → row.vsBem = Cell.na)))) ∧
    ((getConv data "Traditional").isEmpty = true → mkRow name data = none) := by
  constructor
  · intro row hrow
    simp only [mkRow] at hrow
    by_cases hg : ((getConv data "Blocktail").isEmpty ||
        (getConv data "Traditional").isEmpty) = true
    · rw [if_pos hg] at hrow
      cases hrow
    · rw [if_neg hg] at hrow
      have hr := Option.some_inj.mp hrow
      subst hr
      refine ⟨rfl, rfl, ?_, ?_, ?_, ?_, ?_⟩
      · intro hpos
        have hpos2 : 0 < convAvg (getConv data "Traditional") := hpos
        simp [hpos2]
      · intro h0
        have h02 : convAvg (getConv data "Traditional") = 0 := h0
        simp [h02]
      · intro hbe
        simp [truthy, hbe]
      · intro hz
        by_cases hbe : (getConv data "BEM").isEmpty = true
        · simp [truthy, hbe]
        · simp only [Bool.not_eq_true] at hbe
          simp [truthy, hbe, hz]
      · intro hbe hnz
        refine ⟨by simp [truthy, hbe, hnz], ?_⟩
        intro d hd
        subst hd
        constructor
        · intro hdnz
          simp [truthy, hbe, hnz, hdnz]
        · intro hdz
          simp [truthy, hbe, hnz, hdz]
  · intro hte
    simp [mkRow, hte]

/-- Witness for the amended C1 on a document with all three conventions. -/
theorem c1_delta_cells_witness :
    mkRow "t" exDocFull = some exRowFull ∧
    exRowFull.blocktailAvg = convAvg (getConv exDocFull "Blocktail") ∧
    exRowFull.vsTrad = Cell.pct ((exRowFull.tradAvg - exRowFull.blocktailAvg) /
      exRowFull.tradAvg * 100) ∧
    exRowFull.bemAvg = Cell.val (convAvg (getConv exDocFull "BEM")) ∧
    exRowFull.vsBem = Cell.pct ((convAvg (getConv exDocFull "BEM") -
      exRowFull.blocktailAvg) / convAvg (getConv exDocFull "BEM") * 100) := by
  have hbl : getConv exDocFull "BEM" =
      [{ input := "m".toList, tokens := [], num_tokens := 8 }] := by decide
  have hbav : convAvg (getConv exDocFull "BEM") = 8 := by
    rw [hbl]
    norm_num [convAvg, meanOfCounts]
  have hrow : mkRow "t" exDocFull = some exRowFull := by
    simp [mkRow, exDocFull, exRowFull, getConv, lookupConv, convAvg,
      meanOfCounts, truthy]
    norm_num
  have h := (c1_delta_cells "t" exDocFull).1 exRowFull hrow
  refine ⟨hrow, h.1, ?_, ?_, ?_⟩
  · exact h.2.2.1 (by norm_num [exRowFull])
  · exact (h.2.2.2.2.2.2 (by decide) (by rw [hbav]; norm_num)).1
  · exact ((h.2.2.2.2.2.2 (by decide) (by rw [hbav]; norm_num)).2 _ rfl).1
      (by rw [hbav, h.1]; norm_num [exRowFull, convAvg, getConv, lookupConv,
        exDocFull, meanOfCounts])

/-- Claim C4: a document lacking the BEM convention still yields a comparison
row with "N/A" in both BEM columns and the Traditional-vs-Blocktail delta
computed by the stated formula; a document with missing or empty Blocktail or
Traditional data is skipped entirely — it produces no row, never a zero row. -/
theorem c4_absent_and_skip (name : String) (data : ResultDoc) :
    (lookupConv "BEM" data = none →
      (getConv data "Blocktail").isEmpty = false →
      (getConv data "Traditional").isEmpty = false →
      0 < convAvg (getConv data "Traditional") →
      mkRow name data = some
        { tokName := name
          blocktailAvg := convAvg (getConv data "Blocktail")
          tradAvg := convAvg (getConv data "Traditional")
          bemAvg := Cell.na
          vsTrad := Cell.pct ((convAvg (getConv data "Traditional") -
              convAvg (getConv data "Blocktail")) /
            convAvg (getConv data "Traditional") * 100)
          vsBem := Cell.na }) ∧
    ((getConv data "Blocktail").isEmpty = true ∨
        (getConv data "Traditional").isEmpty = true →
      mkRow name data = none) := by
  constructor
  · intro hbem hbt htr hpos
    have hbemE : getConv data "BEM" = [] := by simp [getConv, hbem]
    simp [mkRow, hbt, htr, hbemE, truthy, hpos]
  · intro hor
    rcases hor with h | h <;> simp [mkRow, h]

/-- Witness for C4: a BEM-less document gets its row with "N/A" BEM cells, and
a document without Traditional data is skipped. -/
theorem c4_absent_and_skip_witness :
    lookupConv "BEM" exDocNoBem = none ∧
    (0 : ℚ) < convAvg (getConv exDocNoBem "Traditional") ∧
    mkRow "t" exDocNoBem = some
      { tokName := "t"
        blocktailAvg := convAvg (getConv exDocNoBem "Blocktail")
        tradAvg := convAvg (getConv exDocNoBem "Traditional")
        bemAvg := Cell.na
        vsTrad := Cell.pct ((convAvg (getConv exDocNoBem "Traditional") -
            convAvg (getConv exDocNoBem "Blocktail")) /
          convAvg (getConv exDocNoBem "Traditional") * 100)
        vsBem := Cell.na } ∧
    mkRow "t" exDocOnlyBt = none := by
  have htl : getConv exDocNoBem "Traditional" =
      [{ input := "t".toList, tokens := [], num_tokens := 6 }] := by decide
  have hpos : (0 : ℚ) < convAvg (getConv exDocNoBem "Traditional") := by
    rw [htl]
    norm_num [convAvg, meanOfCounts]
  refine ⟨by decide, hpos, ?_, ?_⟩
  · exact (c4_absent_and_skip "t" exDocNoBem).1 (by decide) (by decide)
      (by decide) hpos
  · exact (c4_absent_and_skip "t" exDocOnlyBt).2 (Or.inr (by decide))

/-- The defining equation of `findSub`, independent of the list's shape. -/
theorem findSub_eq (pat s : Text) :
    findSub pat s = if pat.isPrefixOf s then some 0 else
      match s with
      | [] => none
      | _ :: t => (findSub pat t).map (· + 1) := by
  cases s <;> rfl

/-- A pattern is a prefix of itself followed by anything. -/
theorem isPrefixOf_append_self (p rest : Text) : p.isPrefixOf (p ++ rest) = true := by
  induction p with
  | nil => cases rest <;> rfl
  | cons c p ih => simp [List.isPrefixOf, ih]

/-- When no occurrence of `pat` starts inside `A`, the search finds `pat`
exactly at the end of `A`. -/
theorem findSub_at_marker (pat A rest : Text)
    (h : ∀ i, i < A.length → pat.isPrefixOf ((A ++ (pat ++ rest)).drop i) = false) :
    findSub pat (A ++ (pat ++ rest)) = some A.length := by
  induction A with
  | nil =>
    rw [List.nil_append, findSub_eq, if_pos (isPrefixOf_append_self pat rest)]
    rfl
  | cons c A ih =>
    rw [List.cons_append, findSub_eq]
    have h0 := h 0 (by simp)
    rw [List.drop_zero, List.cons_append] at h0
    rw [if_neg (by simp [h0])]
    have hrec : findSub pat (A ++ (pat ++ rest)) = some A.length := by
      refine ih ?_
      intro i hi
      have := h (i + 1) (by simp only [List.length_cons]; omega)
      rwa [List.cons_append, List.drop_succ_cons] at this
    simp [hrec]

/-- Splitting at the first marker occurrence recovers the prefix and the
suffix. -/
theorem splitOnce_at_marker (pat A rest : Text)
    (h : ∀ i, i < A.length → pat.isPrefixOf ((A ++ (pat ++ rest)).drop i) = false) :
    splitOnce (A ++ (pat ++ rest)) pat = some (A, rest) := by
  rw [splitOnce, findSub_at_marker pat A rest h]
  have ht : (A ++ (pat ++ rest)).take A.length = A := List.take_left A (pat ++ rest)
  have hd : (A ++ (pat ++ rest)).drop (A.length + pat.length) = rest := by
    rw [← List.append_assoc]
    have hlen : A.length + pat.length = (A ++ pat).length := by simp
    rw [hlen]
    exact List.drop_left (A ++ pat) rest
  simp [ht, hd]

/-- Claim C6: for a README of the form
`A ++ RESULTS ++ B ++ END_RESULTS ++ C` (with no marker occurrence starting
inside `A`, resp. no closing-marker occurrence starting inside `B`), splicing
a new report rewrites the document to
`A ++ RESULTS ++ newline ++ report ++ newline ++ END_RESULTS ++ C`, keeping
`A` and `C` byte-identical. -/
theorem c6_readme_splice (A B C summary : Text)
    (h1 : ∀ i, i < A.length →
      resultsMark.isPrefixOf
        ((A ++ (resultsMark ++ (B ++ (endResultsMark ++ C)))).drop i) = false)
    (h2 : ∀ j, j < B.length →
      endResultsMark.isPrefixOf ((B ++ (endResultsMark ++ C)).drop j) = false) :
    spliceReadme (A ++ (resultsMark ++ (B ++ (endResultsMark ++ C)))) summary =
      A ++ resultsMark ++ nlChar :: summary ++ nlChar :: (endResultsMark ++ C) := by
  simp only [spliceReadme,
    splitOnce_at_marker resultsMark A (B ++ (endResultsMark ++ C)) h1,
    splitOnce_at_marker endResultsMark B C h2]

/-- Witness for C6 on a concrete README. -/
theorem c6_readme_splice_witness :
    (∀ i, i < exA.length →
      resultsMark.isPrefixOf
        ((exA ++ (resultsMark ++ (exB ++ (endResultsMark ++ exC)))).drop i) = false) ∧
    (∀ j, j < exB.length →
      endResultsMark.isPrefixOf ((exB ++ (endResultsMark ++ exC)).drop j) = false) ∧
    spliceReadme (exA ++ (resultsMark ++ (exB ++ (endResultsMark ++ exC)))) exSummary =
      exA ++ resultsMark ++ nlChar :: exSummary ++ nlChar :: (endResultsMark ++ exC) :=
  ⟨by decide, by decide,
    c6_readme_splice exA exB exC exSummary (by decide) (by decide)⟩

end Blocktail
